import Mathlib

/-!
# A shallow embedding of the ipfs-embed coordinator and id/liveness module

This file embeds, in Lean, the parts of the `ipfs-embed` repository that the
verified claims are about:

* `src/db/src/id.rs` — the `Id`/`Ids` packed identifier sequences and the
  cuckoo-filter backed `LiveSet`;
* `src/src/lib.rs` — the `Ipfs` store façade (`get`, `alias`) and the
  `IpfsTask` exchange coordinator (request handling, network events, storage
  events, sweep ticks).

Rust machine integers are modelled as `Nat` with explicit reduction mod `2^64`
where wrap-around matters; fallible operations return `Except`; the `&mut self`
methods become explicit state-passing functions; the coordinator's calls into
the network and storage handles become an explicit `Effect` list so theorems
can speak about which calls a transition issues.
-/

namespace IpfsEmbed

/-- Content identifiers are abstract values to the coordinator; we model them as `Nat`. -/
abbrev Cid : Type := Nat

/-- Peer identifiers are likewise abstract. -/
abbrev PeerId : Type := Nat

/-- Block payloads: a byte is a `Nat` below 256; the bound is irrelevant to the
claims, so bytes are plain `Nat`s. -/
abbrev Bytes : Type := List Nat

/-- A block is a pair of a cid and its bytes (`Block::new_unchecked`). -/
structure Block where
  cid : Cid
  data : Bytes
deriving DecidableEq, Repr

/-! ## `src/db/src/id.rs`: Id, Ids, LiveSet -/

/-- `Id`: an 8-byte big-endian internal identifier.  The claims only depend on
its value equality, so it is modelled by the `u64` it encodes. -/
abbrev Id : Type := Nat

/-- `Ids`: a packed concatenation of 8-byte ids, modelled by its byte
content. -/
structure Ids where
  bytes : List Nat
deriving DecidableEq, Repr

/-- `Ids::concat`: allocate a buffer of the total size and copy each input's
bytes into it left to right (`buf[start..end].copy_from_slice(ids.as_ref())`).
The sequential copy is the left fold that appends each input's bytes. -/
def Ids.concat (idss : List Ids) : Ids :=
  ⟨idss.foldl (fun buf ids => buf ++ ids.bytes) []⟩

/-- The `Default` instance of `Ids` (derived in the source): the empty byte
sequence. -/
def Ids.empty : Ids := ⟨[]⟩

/-- Model of the external `cuckoofilter` crate used by `LiveSet`
(`CuckooFilter<FnvHasher>`): an approximate multiset of fingerprints with a
capacity.  The model stores the ids themselves (exact membership); `add` keeps
one slot per stored element and fails when the filter is full, mirroring the
crate's insertion failure after its eviction chain; `delete` removes one
occurrence and is a no-op when the element is absent. -/
structure CuckooFilter where
  entries : List Id
  capacity : Nat
deriving DecidableEq, Repr

/-- `CuckooFilter::contains`. -/
def CuckooFilter.contains (f : CuckooFilter) (id : Id) : Bool :=
  f.entries.contains id

/-- `CuckooFilter::add`: fails exactly when the filter is at capacity. -/
def CuckooFilter.add (f : CuckooFilter) (id : Id) : Except Unit CuckooFilter :=
  if f.entries.length < f.capacity then
    Except.ok ⟨id :: f.entries, f.capacity⟩
  else
    Except.error ()

/-- `CuckooFilter::delete`: remove one occurrence of the fingerprint, no-op if
absent. -/
def CuckooFilter.delete (f : CuckooFilter) (id : Id) : CuckooFilter :=
  ⟨f.entries.erase id, f.capacity⟩

/-- The crate's `cuckoofilter::DEFAULT_CAPACITY` (its exact magnitude is
irrelevant to the claims; only positivity is used). -/
def DEFAULT_CAPACITY : Nat := 2 ^ 20

/-- `LiveSet`: a cuckoo filter plus an exact distinct counter (`usize`). -/
structure LiveSet where
  filter : CuckooFilter
  distinct : Nat
deriving DecidableEq, Repr

/-- `LiveSet::new`. -/
def LiveSet.new : LiveSet :=
  ⟨⟨[], DEFAULT_CAPACITY⟩, 0⟩

/-- `LiveSet::len`. -/
def LiveSet.len (s : LiveSet) : Nat := s.distinct

/-- `LiveSet::contains`. -/
def LiveSet.contains (s : LiveSet) (id : Id) : Bool :=
  s.filter.contains id

/-- `LiveSet::add`: bump `distinct` if the filter does not contain `id`, then
`filter.add(id)?`.  The counter mutation happens before the fallible filter
insertion, so it survives an insertion failure; `usize` increment is reduced
mod `2^64`. -/
def LiveSet.add (s : LiveSet) (id : Id) : LiveSet × Except Unit Unit :=
  let distinct' := if ¬ s.filter.contains id then (s.distinct + 1) % 2 ^ 64 else s.distinct
  match s.filter.add id with
  | Except.ok f => (⟨f, distinct'⟩, Except.ok ())
  | Except.error e => (⟨s.filter, distinct'⟩, Except.error e)

/-- `LiveSet::delete`: delete from the filter, then decrement `distinct` if the
filter no longer contains `id`.  `usize` decrement wraps mod `2^64`
(`self.distinct -= 1`). -/
def LiveSet.delete (s : LiveSet) (id : Id) : LiveSet :=
  let f := s.filter.delete id
  if ¬ f.contains id then ⟨f, (s.distinct + (2 ^ 64 - 1)) % 2 ^ 64⟩
  else ⟨f, s.distinct⟩

/-! ## `src/src/lib.rs`: errors, store façade, exchange coordinator -/

/-- The error kinds the façade distinguishes: `BlockNotFound(cid)` (matched by
downcast in `alias`), and the abstract remaining kinds that the coordinator never
recovers from. -/
inductive Err where
  | blockNotFound (cid : Cid)
  | storageFailure
  | codecFailure
deriving DecidableEq, Repr

/-- A `oneshot::Sender<Block>` held in a `Wanted` entry: `id` identifies the
waiting caller, `alive` records whether the receiving end still exists
(`tx.send` succeeds exactly when it does). -/
structure Waiter where
  id : Nat
  alive : Bool
deriving DecidableEq, Repr

/-- `Wanted`: the per-cid coordinator entry — the list of reply channels and
the `Instant` the entry was created (time points are `Nat`). -/
structure Wanted where
  ch : List Waiter
  timestamp : Nat
deriving DecidableEq, Repr

/-- `Wanted::add_receiver`: push the channel onto the list. -/
def Wanted.add_receiver (w : Wanted) (tx : Waiter) : Wanted :=
  ⟨w.ch ++ [tx], w.timestamp⟩

/-- Calls the coordinator issues on its network and storage handles, plus the
successful block deliveries on reply channels; each transition below returns
the list of effects it performs, in order. -/
inductive Effect where
  | providers (cid : Cid)
  | want (cid : Cid) (priority : Nat)
  | cancel (cid : Cid)
  | connect (peer : PeerId)
  | provide (cid : Cid)
  | unprovide (cid : Cid)
  | send (cid : Cid) (data : Bytes)
  | sendTo (peer : PeerId) (cid : Cid) (data : Bytes)
  | storageInsert (b : Block)
  | deliver (waiter : Nat) (b : Block)
deriving DecidableEq, Repr

/-- `Wanted::received`: iterate over the channel list and `tx.send(block
.clone()).ok()` on each — a send to a dropped receiver fails, the error is
discarded, and the loop continues; the effects are the successful deliveries. -/
def Wanted.received (w : Wanted) (b : Block) : List Effect :=
  (w.ch.filter (fun tx => tx.alive)).map (fun tx => Effect.deliver tx.id b)

/-- The network events of `ipfs_embed_core::NetworkEvent` handled by the
coordinator's event loop. -/
inductive NetworkEvent where
  | providersFound (cid : Cid) (providers : List PeerId)
  | getProvidersFailed (cid : Cid)
  | providing (cid : Cid)
  | startProvidingFailed (cid : Cid)
  | receivedBlock (peer : PeerId) (cid : Cid) (data : Bytes)
  | receivedWant (peer : PeerId) (cid : Cid) (priority : Nat)
  | bootstrapComplete
deriving DecidableEq, Repr

/-- The storage events of `ipfs_embed_core::StorageEvent`. -/
inductive StorageEvent where
  | insert (cid : Cid)
  | remove (cid : Cid)
deriving DecidableEq, Repr

/-- The result type of the storage handle's synchronous `get`:
`Result<Option<Vec<u8>>>`. -/
abbrev StorageGet : Type := Cid → Except Err (Option Bytes)

/-- Lookup in the coordinator's `HashMap<Cid, Wanted>`, modelled as an
association list with at most one entry per cid. -/
def lookupWanted : List (Cid × Wanted) → Cid → Option Wanted
  | [], _ => none
  | (c, w) :: rest, cid => if c = cid then some w else lookupWanted rest cid

/-- `HashMap::insert` semantics on the association-list model: replace the
entry for the cid if present, otherwise append a fresh one. -/
def insertWanted : List (Cid × Wanted) → Cid → Wanted → List (Cid × Wanted)
  | [], cid, w => [(cid, w)]
  | (c, w0) :: rest, cid, w =>
    if c = cid then (cid, w) :: rest else (c, w0) :: insertWanted rest cid w

/-- `HashMap::remove` semantics on the association-list model. -/
def eraseWanted : List (Cid × Wanted) → Cid → List (Cid × Wanted)
  | [], _ => []
  | (c, w) :: rest, cid =>
    if c = cid then eraseWanted rest cid else (c, w) :: eraseWanted rest cid

/-- The mutable state of `IpfsTask` that the claims are about: the wanted map,
the bootstrap flag, and the configured timeout (a `Duration`, in the same time
unit as the `Instant`s). -/
structure IpfsTask where
  wanted : List (Cid × Wanted)
  bootstrap_complete : Bool
  timeout : Nat
deriving DecidableEq, Repr

/-- `IpfsTask::new`: empty wanted map and `bootstrap_complete: true`. -/
def IpfsTask.new (timeout : Nat) : IpfsTask :=
  ⟨[], true, timeout⟩

/-- The request-channel arm of `IpfsTask::poll`: on `(cid, tx)`,
`self.wanted.entry(cid).or_default()` (a fresh entry carries
`timestamp: Instant::now()`, i.e. `now`), `entry.add_receiver(tx)`, then
`self.network.providers(&cid)` and `self.network.want(cid, 1000)` —
unconditionally, whether or not the entry already existed. -/
def IpfsTask.handleRequest (st : IpfsTask) (cid : Cid) (tx : Waiter) (now : Nat) :
    IpfsTask × List Effect :=
  let entry := (lookupWanted st.wanted cid).getD ⟨[], now⟩
  let entry' := entry.add_receiver tx
  (⟨insertWanted st.wanted cid entry', st.bootstrap_complete, st.timeout⟩,
   [Effect.providers cid, Effect.want cid 1000])

/-- The network-event arm of `IpfsTask::poll`, one event at a time.
`storageGet` is the storage handle's `get`, consulted on `ReceivedWant`. -/
def IpfsTask.handleNetworkEvent (st : IpfsTask) (ev : NetworkEvent) (storageGet : StorageGet) :
    IpfsTask × List Effect :=
  match ev with
  | NetworkEvent.providersFound _ providers =>
    match providers with
    | peer :: _ => (st, [Effect.connect peer])
    | [] => (st, [])
  | NetworkEvent.getProvidersFailed _ => (st, [])
  | NetworkEvent.providing _ => (st, [])
  | NetworkEvent.startProvidingFailed _ => (st, [])
  | NetworkEvent.receivedBlock _ cid data =>
    match lookupWanted st.wanted cid with
    | some w =>
      (⟨eraseWanted st.wanted cid, st.bootstrap_complete, st.timeout⟩,
       w.received ⟨cid, data⟩)
    | none => (st, [])
  | NetworkEvent.receivedWant peer cid _ =>
    match storageGet cid with
    | Except.ok (some data) => (st, [Effect.sendTo peer cid data])
    | Except.ok none => (st, [])
    | Except.error _ => (st, [])
  | NetworkEvent.bootstrapComplete =>
    (⟨st.wanted, true, st.timeout⟩, [])

/-- The storage-event arm of `IpfsTask::poll`: the `while
self.bootstrap_complete` loop only polls the storage stream when the flag is
true, so the returned `Bool` records whether the event was consumed at all.
On `Insert(cid)` the bytes are fetched back from storage and, when present,
`provide(cid)` and `send(cid, data)` are issued; on `Remove(cid)`,
`unprovide(cid)`. -/
def IpfsTask.consumeStorageEvent (st : IpfsTask) (ev : StorageEvent) (storageGet : StorageGet) :
    IpfsTask × List Effect × Bool :=
  if st.bootstrap_complete then
    match ev with
    | StorageEvent.insert cid =>
      match storageGet cid with
      | Except.ok (some data) => (st, [Effect.provide cid, Effect.send cid data], true)
      | Except.ok none => (st, [], true)
      | Except.error _ => (st, [], true)
    | StorageEvent.remove cid => (st, [Effect.unprovide cid], true)
  else
    (st, [], false)

/-- The body of `wanted.retain(...)` in the sweep arm, processed entry by
entry: keep an entry when `wanted.timestamp > timedout`, otherwise issue
`network.cancel(cid)` and drop it. -/
def sweepGo (timedout : Nat) : List (Cid × Wanted) → List (Cid × Wanted) × List Effect
  | [] => ([], [])
  | (c, w) :: rest =>
    let r := sweepGo timedout rest
    if timedout < w.timestamp then ((c, w) :: r.1, r.2)
    else (r.1, Effect.cancel c :: r.2)

/-- The interval-tick arm of `IpfsTask::poll`: compute
`timedout = Instant::now() - self.timeout` and retain exactly the entries with
`timestamp > timedout`, cancelling the rest.  `Instant` subtraction is modelled
by truncated `Nat` subtraction; ticks fire at times at least `timeout`, where
the two agree. -/
def IpfsTask.sweep (st : IpfsTask) (now : Nat) : IpfsTask × List Effect :=
  let timedout := now - st.timeout
  let r := sweepGo timedout st.wanted
  (⟨r.1, st.bootstrap_complete, st.timeout⟩, r.2)

/-- The observable outcome of one `Ipfs::get` call: the returned value, whether
a `(cid, reply)` request was sent into the coordinator channel, and the block
passed to `storage.insert` on the reply path (if any). -/
structure GetOutcome where
  result : Except Err Block
  sentRequest : Bool
  insertedBlock : Option Block
deriving Repr

/-- `Ipfs::get(cid)` as a function of the oracles for its awaited and fallible
collaborators: `storageGet` is `self.storage.get(cid)?`; `sendReq` is
`self.tx.clone().send((cid, tx)).await?`; `reply` is the outcome of
`rx.await` (`none` when the reply channel was dropped without a block);
`insertRes` is `self.storage.insert(&block)?` on the reply path.  Mirrors the
source: storage hit returns immediately; otherwise send the request, await,
insert-and-return on a delivered block, and `Err(BlockNotFound(cid))` on a
dropped channel. -/
def ipfsGet (cid : Cid) (storageGet : Except Err (Option Bytes)) (sendReq : Except Err Unit)
    (reply : Option Block) (insertRes : Except Err Unit) : GetOutcome :=
  match storageGet with
  | Except.error e => ⟨Except.error e, false, none⟩
  | Except.ok (some data) => ⟨Except.ok ⟨cid, data⟩, false, none⟩
  | Except.ok none =>
    match sendReq with
    | Except.error e => ⟨Except.error e, true, none⟩
    | Except.ok () =>
      match reply with
      | some block =>
        match insertRes with
        | Except.ok () => ⟨Except.ok block, true, some block⟩
        | Except.error e => ⟨Except.error e, true, some block⟩
      | none => ⟨Except.error (Err.blockNotFound cid), true, none⟩

/-- `Ipfs::alias`'s retry loop, with explicit fuel standing for the number of
loop iterations actually executed (`none` means the loop is still running
after `fuel` iterations, i.e. it has not returned).  `storageAlias k` is the
outcome of the `k`-th `self.storage.alias(alias.as_ref(), cid).await`;
`doGet c` is `self.get(&c).await`.  Mirrors the source exactly: on
`Ok`, return `Ok(())`; on `Err(err)`, if the error downcasts to
`BlockNotFound(c)` then `self.get(c).await?` (a `get` error returns), and in
every other error case the `if let` does not match, the error is discarded,
and the loop runs again. -/
def aliasLoop (storageAlias : Nat → Except Err Unit) (doGet : Cid → Except Err Unit) :
    Nat → Nat → Option (Except Err Unit)
  | 0, _ => none
  | fuel + 1, attempt =>
    match storageAlias attempt with
    | Except.ok () => some (Except.ok ())
    | Except.error e =>
      match e with
      | Err.blockNotFound c =>
        match doGet c with
        | Except.ok () => aliasLoop storageAlias doGet fuel (attempt + 1)
        | Except.error e2 => some (Except.error e2)
      | _ => aliasLoop storageAlias doGet fuel (attempt + 1)

/-- A concrete `LiveSet` used to instantiate the LiveSet theorems: one stored
id (5), distinct count 1, tiny capacity. -/
def sampleLiveSet : LiveSet := ⟨⟨[5], 3⟩, 1⟩

/-- A concrete coordinator state with one outstanding want for cid 1, created
by a request from waiter 0 at time 0 (timeout 10). -/
def sampleTask : IpfsTask := ((IpfsTask.new 10).handleRequest 1 ⟨0, true⟩ 0).1

/-- A concrete storage-get oracle that stores the bytes `[42]` under every
cid. -/
def gOkSome : StorageGet := fun _ => Except.ok (some [42])

/-- A concrete storage-get oracle for an empty store. -/
def gOkNone : StorageGet := fun _ => Except.ok none

/-! ## Theorems -/

theorem lookup_insertWanted_self (l : List (Cid × Wanted)) (cid : Cid) (w : Wanted) :
    lookupWanted (insertWanted l cid w) cid = some w := by
  induction l with
  | nil => simp [insertWanted, lookupWanted]
  | cons p rest ih =>
    rcases p with ⟨c, w0⟩
    by_cases hc : c = cid <;> simp [insertWanted, lookupWanted, hc, ih]

theorem lookup_insertWanted_other (l : List (Cid × Wanted)) (cid c : Cid) (w : Wanted)
    (h : c ≠ cid) :
    lookupWanted (insertWanted l cid w) c = lookupWanted l c := by
  induction l with
  | nil => simp [insertWanted, lookupWanted, h, Ne.symm h]
  | cons p rest ih =>
    rcases p with ⟨c0, w0⟩
    by_cases hc : c0 = cid
    · subst hc
      simp [insertWanted, lookupWanted, h, Ne.symm h, ih]
    · simp [insertWanted, lookupWanted, hc, h, ih]

theorem lookup_eraseWanted_self (l : List (Cid × Wanted)) (cid : Cid) :
    lookupWanted (eraseWanted l cid) cid = none := by
  induction l with
  | nil => rfl
  | cons p rest ih =>
    rcases p with ⟨c, w⟩
    by_cases hc : c = cid <;> simp [eraseWanted, lookupWanted, hc, ih]

theorem lookup_eraseWanted_other (l : List (Cid × Wanted)) (cid c : Cid) (h : c ≠ cid) :
    lookupWanted (eraseWanted l cid) c = lookupWanted l c := by
  induction l with
  | nil => rfl
  | cons p rest ih =>
    rcases p with ⟨c0, w0⟩
    by_cases hc : c0 = cid
    · subst hc
      simp [eraseWanted, lookupWanted, h, Ne.symm h, ih]
    · simp [eraseWanted, lookupWanted, hc, h, ih]

theorem foldl_append_bytes (l : List Ids) (acc : List Nat) :
    l.foldl (fun buf ids => buf ++ ids.bytes) acc = acc ++ (l.map Ids.bytes).flatten := by
  induction l generalizing acc with
  | nil => simp
  | cons x xs ih => simp [ih]

theorem concat_bytes (l : List Ids) :
    (Ids.concat l).bytes = (l.map Ids.bytes).flatten := by
  simp [Ids.concat, foldl_append_bytes]

theorem ids_eq_of_bytes (a b : Ids) (h : a.bytes = b.bytes) : a = b := by
  cases a
  cases b
  simpa using h

/-- C9: `Ids::concat` is associative — `concat [concat [a, b], c]` and
`concat [a, concat [b, c]]` both equal `concat [a, b, c]`; in general the byte
content of a concat is the concatenation of the inputs' bytes in list order,
and the empty `Ids` is an identity. -/
theorem ids_concat_assoc :
    (∀ a b c : Ids,
      Ids.concat [Ids.concat [a, b], c] = Ids.concat [a, b, c]
      ∧ Ids.concat [a, Ids.concat [b, c]] = Ids.concat [a, b, c])
    ∧ (∀ l : List Ids, (Ids.concat l).bytes = (l.map Ids.bytes).flatten)
    ∧ (∀ a : Ids, Ids.concat [Ids.empty, a] = a ∧ Ids.concat [a, Ids.empty] = a) := by
  refine ⟨fun a b c => ⟨?_, ?_⟩, concat_bytes, fun a => ⟨?_, ?_⟩⟩
  all_goals apply ids_eq_of_bytes
  all_goals simp [concat_bytes, Ids.empty]

theorem two_pow_64_eq : (2 : Nat) ^ 64 = 18446744073709551616 := by norm_num

/-- C3 counterexample: the claim says `delete(id)` on an id not contained in
the filter leaves `len()` unchanged; on the state reached by `LiveSet::new`
followed by `add(5)`, the id 7 is not contained, yet `delete(7)` changes
`len()` from 1 to 0 (the decrement runs because `contains(7)` is false after
the no-op filter deletion). -/
theorem liveset_delete_missing_not_idempotent :
    ((LiveSet.new.add 5).1.contains 7 = false)
    ∧ ((LiveSet.new.add 5).1.delete 7).len ≠ (LiveSet.new.add 5).1.len := by
  constructor
  · decide
  · decide

/-- C3 (amended): `delete(id)` decrements the distinct count exactly when the
filter no longer contains `id` after the filter deletion; in particular a
`delete` of an id that was never contained still decrements the count — it is
not idempotent on missing ids. -/
theorem liveset_delete_decrement_iff (s : LiveSet) (id : Id)
    (h0 : 0 < s.distinct) (h1 : s.distinct < 2 ^ 64) :
    ((s.delete id).len = s.len - 1 ↔ (s.filter.delete id).contains id = false)
    ∧ ((s.delete id).len = s.len ↔ (s.filter.delete id).contains id = true)
    ∧ (s.contains id = false → (s.delete id).len = s.len - 1) := by
  have hlen : s.len = s.distinct := rfl
  have hmod : (s.distinct + 18446744073709551615) % 18446744073709551616 = s.distinct - 1 := by
    rw [two_pow_64_eq] at h1
    omega
  have herase : s.contains id = false → (s.filter.delete id).contains id = false := by
    intro h
    have hmem : id ∉ s.filter.entries := by
      simpa [LiveSet.contains, CuckooFilter.contains] using h
    simp [CuckooFilter.delete, CuckooFilter.contains, List.erase_of_not_mem hmem, hmem]
  rcases hc : (s.filter.delete id).contains id with _ | _
  · have hd : (s.delete id).len = s.len - 1 := by
      simp [LiveSet.delete, hc, LiveSet.len, hmod]
    refine ⟨⟨fun _ => rfl, fun _ => hd⟩, ⟨fun h => ?_, fun h => by cases h⟩, fun _ => hd⟩
    rw [hd, hlen] at h
    omega
  · have hd : (s.delete id).len = s.len := by
      simp [LiveSet.delete, hc, LiveSet.len]
    refine ⟨⟨fun h => ?_, fun h => by cases h⟩, ⟨fun _ => rfl, fun _ => hd⟩, fun h => ?_⟩
    · rw [hd, hlen] at h
      omega
    · cases (herase h).symm.trans hc

/-- Witness for the amended C3 theorem at the concrete state `sampleLiveSet`. -/
theorem liveset_delete_decrement_iff_witness :
    0 < sampleLiveSet.distinct
    ∧ (((sampleLiveSet.delete 7).len = sampleLiveSet.len - 1 ↔
          (sampleLiveSet.filter.delete 7).contains 7 = false)
        ∧ ((sampleLiveSet.delete 7).len = sampleLiveSet.len ↔
          (sampleLiveSet.filter.delete 7).contains 7 = true)
        ∧ (sampleLiveSet.contains 7 = false → (sampleLiveSet.delete 7).len = sampleLiveSet.len - 1)) :=
  ⟨by decide, liveset_delete_decrement_iff sampleLiveSet 7 (by decide) (by decide)⟩

/-- C4: `add(id)` increments `len()` exactly when the filter did not already
contain `id` at call time, and the call returns an error exactly when the
underlying filter rejects the insertion (otherwise `Ok`). -/
theorem liveset_add_spec (s : LiveSet) (id : Id) (h : s.distinct + 1 < 2 ^ 64) :
    ((s.add id).2.isOk = (s.filter.add id).isOk)
    ∧ ((s.add id).1.len = if s.contains id then s.len else s.len + 1) := by
  have hmod : (s.distinct + 1) % 2 ^ 64 = s.distinct + 1 := Nat.mod_eq_of_lt h
  have h' : s.distinct + 1 < 18446744073709551616 := by
    rw [two_pow_64_eq] at h
    exact h
  unfold LiveSet.add
  rcases ha : s.filter.add id with f | e <;>
    rcases hc : s.filter.contains id with _ | _ <;>
      simp [LiveSet.len, LiveSet.contains, hc, hmod, h', Except.isOk, Except.toBool]

/-- Witness for the C4 theorem at the concrete state `sampleLiveSet`. -/
theorem liveset_add_spec_witness :
    sampleLiveSet.distinct + 1 < 2 ^ 64
    ∧ (((sampleLiveSet.add 7).2.isOk = (sampleLiveSet.filter.add 7).isOk)
        ∧ ((sampleLiveSet.add 7).1.len =
            if sampleLiveSet.contains 7 then sampleLiveSet.len else sampleLiveSet.len + 1)) :=
  ⟨by decide, liveset_add_spec sampleLiveSet 7 (by decide)⟩

/-- C1 counterexample: with a want for cid 1 already outstanding (the entry
created by a first request at time 0 is present), a second request for cid 1
at time 3 joins the existing entry, yet the coordinator again issues a
providers lookup and a want broadcast for cid 1 — refuting the claim that no
additional lookup or broadcast is issued while a want is outstanding. -/
theorem second_request_rebroadcasts_want :
    (lookupWanted sampleTask.wanted 1).isSome = true
    ∧ Effect.providers 1 ∈ (sampleTask.handleRequest 1 ⟨1, true⟩ 3).2
    ∧ Effect.want 1 1000 ∈ (sampleTask.handleRequest 1 ⟨1, true⟩ 3).2 := by
  decide

/-- C1 (amended): when a request arrives for a cid whose wanted entry already
exists, the new waiter is appended to that entry's channel list, the entry's
first-request timestamp is unchanged, and every other cid's entry is
untouched (so the map keeps at most one entry per cid); however, the
coordinator issues a providers lookup and a want broadcast for every request,
not only for the one that created the entry. -/
theorem handleRequest_existing_entry (st : IpfsTask) (cid : Cid) (tx : Waiter)
    (now : Nat) (w : Wanted) (h : lookupWanted st.wanted cid = some w) :
    lookupWanted (st.handleRequest cid tx now).1.wanted cid = some ⟨w.ch ++ [tx], w.timestamp⟩
    ∧ (∀ c, c ≠ cid →
        lookupWanted (st.handleRequest cid tx now).1.wanted c = lookupWanted st.wanted c)
    ∧ (st.handleRequest cid tx now).2 = [Effect.providers cid, Effect.want cid 1000] := by
  refine ⟨?_, fun c hc => ?_, rfl⟩
  · simp [IpfsTask.handleRequest, h, Wanted.add_receiver, lookup_insertWanted_self]
  · simp [IpfsTask.handleRequest, lookup_insertWanted_other _ _ _ _ hc]

/-- Witness for the amended C1 theorem: the concrete state `sampleTask` has an
entry for cid 1, and a second request behaves as the theorem states. -/
theorem handleRequest_existing_entry_witness :
    lookupWanted sampleTask.wanted 1 = some ⟨[⟨0, true⟩], 0⟩
    ∧ (lookupWanted (sampleTask.handleRequest 1 ⟨1, true⟩ 3).1.wanted 1
          = some ⟨[⟨0, true⟩] ++ [⟨1, true⟩], 0⟩
        ∧ (∀ c, c ≠ 1 →
            lookupWanted (sampleTask.handleRequest 1 ⟨1, true⟩ 3).1.wanted c
              = lookupWanted sampleTask.wanted c)
        ∧ (sampleTask.handleRequest 1 ⟨1, true⟩ 3).2
            = [Effect.providers 1, Effect.want 1 1000]) :=
  ⟨by decide, handleRequest_existing_entry sampleTask 1 ⟨1, true⟩ 3 ⟨[⟨0, true⟩], 0⟩ (by decide)⟩

/-- C10: a ReceivedBlock event for a cid with no outstanding wanted entry is a
no-op: the coordinator state (including the wanted map) is unchanged and no
effect is performed — nothing is inserted into storage, no network call is
made, and the received bytes are discarded. -/
theorem receivedBlock_unwanted_noop (st : IpfsTask) (p : PeerId) (cid : Cid)
    (data : Bytes) (g : StorageGet) (h : lookupWanted st.wanted cid = none) :
    st.handleNetworkEvent (NetworkEvent.receivedBlock p cid data) g = (st, []) := by
  simp [IpfsTask.handleNetworkEvent, h]

/-- Witness for the C10 theorem on a fresh coordinator (empty wanted map). -/
theorem receivedBlock_unwanted_noop_witness :
    lookupWanted (IpfsTask.new 10).wanted 1 = none
    ∧ (IpfsTask.new 10).handleNetworkEvent (NetworkEvent.receivedBlock 9 1 [42]) gOkNone
        = (IpfsTask.new 10, []) :=
  ⟨rfl, receivedBlock_unwanted_noop (IpfsTask.new 10) 9 1 [42] gOkNone rfl⟩

/-- C7: on ReceivedBlock for a cid with an outstanding wanted entry, the
coordinator removes exactly that entry from the map and delivers a clone of
the block to every waiter in the entry's list whose receiver is still alive —
a dropped receiver is skipped without preventing delivery to the remaining
waiters; on this path no block is inserted into storage and no want is
cancelled. -/
theorem receivedBlock_delivers_to_waiters (st : IpfsTask) (p : PeerId) (cid : Cid)
    (data : Bytes) (g : StorageGet) (w : Wanted)
    (h : lookupWanted st.wanted cid = some w) :
    lookupWanted (st.handleNetworkEvent (NetworkEvent.receivedBlock p cid data) g).1.wanted cid
        = none
    ∧ (∀ c, c ≠ cid →
        lookupWanted (st.handleNetworkEvent (NetworkEvent.receivedBlock p cid data) g).1.wanted c
          = lookupWanted st.wanted c)
    ∧ (st.handleNetworkEvent (NetworkEvent.receivedBlock p cid data) g).2
        = (w.ch.filter (fun tx => tx.alive)).map (fun tx => Effect.deliver tx.id ⟨cid, data⟩)
    ∧ (∀ tx ∈ w.ch, tx.alive = true →
        Effect.deliver tx.id ⟨cid, data⟩
          ∈ (st.handleNetworkEvent (NetworkEvent.receivedBlock p cid data) g).2)
    ∧ (∀ b, Effect.storageInsert b
          ∉ (st.handleNetworkEvent (NetworkEvent.receivedBlock p cid data) g).2)
    ∧ (∀ c, Effect.cancel c
          ∉ (st.handleNetworkEvent (NetworkEvent.receivedBlock p cid data) g).2) := by
  refine ⟨?_, fun c hc => ?_, ?_, fun tx htx halive => ?_, fun b => ?_, fun c => ?_⟩
  · simp [IpfsTask.handleNetworkEvent, h, lookup_eraseWanted_self]
  · simp [IpfsTask.handleNetworkEvent, h, lookup_eraseWanted_other _ _ _ hc]
  · simp [IpfsTask.handleNetworkEvent, h, Wanted.received]
  · simp only [IpfsTask.handleNetworkEvent, h, Wanted.received, List.mem_map]
    exact ⟨tx, List.mem_filter.mpr ⟨htx, halive⟩, rfl⟩
  · intro hmem
    simp only [IpfsTask.handleNetworkEvent, h, Wanted.received, List.mem_map] at hmem
    obtain ⟨tx, _, heq⟩ := hmem
    simp at heq
  · intro hmem
    simp only [IpfsTask.handleNetworkEvent, h, Wanted.received, List.mem_map] at hmem
    obtain ⟨tx, _, heq⟩ := hmem
    simp at heq

/-- Witness for the C7 theorem at the concrete state `sampleTask`, whose entry
for cid 1 holds the single alive waiter 0. -/
theorem receivedBlock_delivers_to_waiters_witness :
    lookupWanted sampleTask.wanted 1 = some ⟨[⟨0, true⟩], 0⟩
    ∧ (lookupWanted (sampleTask.handleNetworkEvent (NetworkEvent.receivedBlock 9 1 [42]) gOkNone).1.wanted 1
          = none
        ∧ (∀ c, c ≠ 1 →
            lookupWanted (sampleTask.handleNetworkEvent (NetworkEvent.receivedBlock 9 1 [42]) gOkNone).1.wanted c
              = lookupWanted sampleTask.wanted c)
        ∧ (sampleTask.handleNetworkEvent (NetworkEvent.receivedBlock 9 1 [42]) gOkNone).2
            = ((⟨[⟨0, true⟩], 0⟩ : Wanted).ch.filter (fun tx => tx.alive)).map
                (fun tx => Effect.deliver tx.id ⟨1, [42]⟩)
        ∧ (∀ tx ∈ (⟨[⟨0, true⟩], 0⟩ : Wanted).ch, tx.alive = true →
            Effect.deliver tx.id ⟨1, [42]⟩
              ∈ (sampleTask.handleNetworkEvent (NetworkEvent.receivedBlock 9 1 [42]) gOkNone).2)
        ∧ (∀ b, Effect.storageInsert b
              ∉ (sampleTask.handleNetworkEvent (NetworkEvent.receivedBlock 9 1 [42]) gOkNone).2)
        ∧ (∀ c, Effect.cancel c
              ∉ (sampleTask.handleNetworkEvent (NetworkEvent.receivedBlock 9 1 [42]) gOkNone).2)) :=
  ⟨by decide,
   receivedBlock_delivers_to_waiters sampleTask 9 1 [42] gOkNone ⟨[⟨0, true⟩], 0⟩ (by decide)⟩

theorem sweepGo_eq (timedout : Nat) (l : List (Cid × Wanted)) :
    sweepGo timedout l =
      (l.filter (fun e => timedout < e.2.timestamp),
       (l.filter (fun e => ¬ timedout < e.2.timestamp)).map (fun e => Effect.cancel e.1)) := by
  induction l with
  | nil => rfl
  | cons e rest ih =>
    by_cases h : timedout < e.2.timestamp
    · simp [sweepGo, ih, h, not_le.mpr h]
    · simp [sweepGo, ih, h, not_lt.mp h]

/-- C6 counterexample: with timeout 10, waiter 0 requests cid 1 at time 0 and
waiter 1 joins the same entry at time 5; the sweep at time 10 removes the
entry (cancelling the want and dropping both reply channels, which signals
BlockNotFound to both callers), although only 5 time units — less than the
timeout — have elapsed since waiter 1's request.  This refutes the claim that
no caller observes BlockNotFound sooner than the timeout after its request. -/
theorem late_joiner_timed_out_early :
    lookupWanted (sampleTask.handleRequest 1 ⟨1, true⟩ 5).1.wanted 1
        = some ⟨[⟨0, true⟩, ⟨1, true⟩], 0⟩
    ∧ ((sampleTask.handleRequest 1 ⟨1, true⟩ 5).1.sweep 10).1.wanted = []
    ∧ ((sampleTask.handleRequest 1 ⟨1, true⟩ 5).1.sweep 10).2 = [Effect.cancel 1]
    ∧ 10 - 5 < (sampleTask.handleRequest 1 ⟨1, true⟩ 5).1.timeout := by
  decide

/-- C6 (amended): on a sweep tick at time `now`, the retained entries are
exactly those whose first-request timestamp is younger than `timeout`, and a
`cancel(cid)` is issued for exactly the removed (at-least-`timeout`-old)
entries, in map order.  Consequently the caller whose request created an entry
observes BlockNotFound no sooner than `timeout` after its request, but a
caller that joined an existing entry inherits the first requester's timestamp
and may be timed out sooner than `timeout` after its own request. -/
theorem sweep_removes_exactly_expired (st : IpfsTask) (now : Nat)
    (ht : st.timeout ≤ now) (hts : ∀ e ∈ st.wanted, e.2.timestamp ≤ now) :
    (st.sweep now).1.wanted = st.wanted.filter (fun e => now - e.2.timestamp < st.timeout)
    ∧ (st.sweep now).2 =
        (st.wanted.filter (fun e => st.timeout ≤ now - e.2.timestamp)).map
          (fun e => Effect.cancel e.1) := by
  have h1 : st.wanted.filter (fun e => now - st.timeout < e.2.timestamp)
      = st.wanted.filter (fun e => now - e.2.timestamp < st.timeout) := by
    apply List.filter_congr
    intro e he
    have := hts e he
    simp only [decide_eq_decide]
    omega
  have h2 : st.wanted.filter (fun e => ¬ now - st.timeout < e.2.timestamp)
      = st.wanted.filter (fun e => st.timeout ≤ now - e.2.timestamp) := by
    apply List.filter_congr
    intro e he
    have := hts e he
    simp only [decide_eq_decide]
    omega
  constructor
  · show (sweepGo (now - st.timeout) st.wanted).1 = _
    rw [sweepGo_eq]
    exact h1
  · show (sweepGo (now - st.timeout) st.wanted).2 = _
    rw [sweepGo_eq]
    rw [h2]

/-- Witness for the amended C6 theorem: the sweep at time 10 on `sampleTask`
(timeout 10, one entry stamped 0). -/
theorem sweep_removes_exactly_expired_witness :
    sampleTask.timeout ≤ 10
    ∧ (∀ e ∈ sampleTask.wanted, e.2.timestamp ≤ 10)
    ∧ ((sampleTask.sweep 10).1.wanted
          = sampleTask.wanted.filter (fun e => 10 - e.2.timestamp < sampleTask.timeout)
        ∧ (sampleTask.sweep 10).2
            = (sampleTask.wanted.filter (fun e => sampleTask.timeout ≤ 10 - e.2.timestamp)).map
                (fun e => Effect.cancel e.1)) :=
  ⟨by decide, by decide, sweep_removes_exactly_expired sampleTask 10 (by decide) (by decide)⟩

/-- C8: the coordinator's bootstrap flag starts out true (`IpfsTask::new`), is
set to true again on BootstrapComplete, and no transition ever sets it false;
the storage-event stream is consumed exactly while the flag is true, and while
consuming, an Insert(cid) whose bytes are found in storage causes
`provide(cid)` then `send(cid, bytes)`, and a Remove(cid) causes
`unprovide(cid)`. -/
theorem bootstrap_flag_latched (timeout : Nat) (st : IpfsTask) (ev : NetworkEvent)
    (sev : StorageEvent) (g : StorageGet) :
    (IpfsTask.new timeout).bootstrap_complete = true
    ∧ (st.bootstrap_complete = true → (st.handleNetworkEvent ev g).1.bootstrap_complete = true)
    ∧ (∀ cid tx now, (st.handleRequest cid tx now).1.bootstrap_complete = st.bootstrap_complete)
    ∧ (∀ now, (st.sweep now).1.bootstrap_complete = st.bootstrap_complete)
    ∧ (st.consumeStorageEvent sev g).1.bootstrap_complete = st.bootstrap_complete
    ∧ (st.consumeStorageEvent sev g).2.2 = st.bootstrap_complete
    ∧ (st.bootstrap_complete = true → ∀ cid data, g cid = Except.ok (some data) →
        st.consumeStorageEvent (StorageEvent.insert cid) g
          = (st, [Effect.provide cid, Effect.send cid data], true))
    ∧ (st.bootstrap_complete = true → ∀ cid,
        st.consumeStorageEvent (StorageEvent.remove cid) g
          = (st, [Effect.unprovide cid], true)) := by
  have hstate : (st.consumeStorageEvent sev g).1 = st := by
    unfold IpfsTask.consumeStorageEvent
    split
    · split
      · split <;> rfl
      · rfl
    · rfl
  have hconsumed : (st.consumeStorageEvent sev g).2.2 = st.bootstrap_complete := by
    unfold IpfsTask.consumeStorageEvent
    split
    next hb =>
      rw [hb]
      split
      · split <;> rfl
      · rfl
    next hb =>
      simp only [Bool.not_eq_true] at hb
      rw [hb]
  refine ⟨rfl, ?_, fun cid tx now => rfl, fun now => rfl,
    by rw [hstate], hconsumed, ?_, ?_⟩
  · intro hb
    cases ev with
    | providersFound cid providers =>
      rcases providers with _ | ⟨p, ps⟩ <;> simp [IpfsTask.handleNetworkEvent, hb]
    | getProvidersFailed cid => simpa [IpfsTask.handleNetworkEvent] using hb
    | providing cid => simpa [IpfsTask.handleNetworkEvent] using hb
    | startProvidingFailed cid => simpa [IpfsTask.handleNetworkEvent] using hb
    | receivedBlock p cid data =>
      rcases hl : lookupWanted st.wanted cid with _ | w <;>
        simp [IpfsTask.handleNetworkEvent, hl, hb]
    | receivedWant p cid pr =>
      rcases hg : g cid with e | ob
      · simpa [IpfsTask.handleNetworkEvent, hg] using hb
      · rcases ob with _ | d <;> simpa [IpfsTask.handleNetworkEvent, hg] using hb
    | bootstrapComplete => simp [IpfsTask.handleNetworkEvent]
  · intro hb cid data hg
    simp [IpfsTask.consumeStorageEvent, hb, hg]
  · intro hb cid
    simp [IpfsTask.consumeStorageEvent, hb]

/-- Witness for the C8 theorem: the flag survives a BootstrapComplete event on
`sampleTask`, and with the flag true an Insert event for cid 1 against a store
holding bytes `[42]` yields provide-then-send while a Remove yields
unprovide. -/
theorem bootstrap_flag_latched_witness :
    ((sampleTask.handleNetworkEvent NetworkEvent.bootstrapComplete gOkSome).1.bootstrap_complete
        = true)
    ∧ sampleTask.consumeStorageEvent (StorageEvent.insert 1) gOkSome
        = (sampleTask, [Effect.provide 1, Effect.send 1 [42]], true)
    ∧ sampleTask.consumeStorageEvent (StorageEvent.remove 1) gOkSome
        = (sampleTask, [Effect.unprovide 1], true) :=
  ⟨(bootstrap_flag_latched 10 sampleTask NetworkEvent.bootstrapComplete
      (StorageEvent.insert 1) gOkSome).2.1 (by decide),
   (bootstrap_flag_latched 10 sampleTask NetworkEvent.bootstrapComplete
      (StorageEvent.insert 1) gOkSome).2.2.2.2.2.2.1 (by decide) 1 [42] rfl,
   (bootstrap_flag_latched 10 sampleTask NetworkEvent.bootstrapComplete
      (StorageEvent.insert 1) gOkSome).2.2.2.2.2.2.2 (by decide) 1⟩

/-- C5: `Store::get(cid)` returns the locally stored block without sending a
coordinator request when `storage.get` finds it; on a miss it sends a request
and awaits the reply: a delivered block is inserted into storage and returned,
and a dropped reply channel yields `BlockNotFound(cid)`. -/
theorem ipfsGet_spec (cid : Cid) (storageGet : Except Err (Option Bytes))
    (sendReq : Except Err Unit) (reply : Option Block) (insertRes : Except Err Unit) :
    (∀ data, storageGet = Except.ok (some data) →
      ipfsGet cid storageGet sendReq reply insertRes
        = ⟨Except.ok ⟨cid, data⟩, false, none⟩)
    ∧ (∀ b, storageGet = Except.ok none → sendReq = Except.ok () → reply = some b →
        insertRes = Except.ok () →
        ipfsGet cid storageGet sendReq reply insertRes = ⟨Except.ok b, true, some b⟩)
    ∧ (storageGet = Except.ok none → sendReq = Except.ok () → reply = none →
        ipfsGet cid storageGet sendReq reply insertRes
          = ⟨Except.error (Err.blockNotFound cid), true, none⟩) := by
  refine ⟨fun data h1 => ?_, fun b h1 h2 h3 h4 => ?_, fun h1 h2 h3 => ?_⟩ <;>
    subst_vars <;> rfl

/-- Witness for the C5 theorem, covering the storage-hit path, the delivered
reply path, and the dropped reply channel path at concrete inputs. -/
theorem ipfsGet_spec_witness :
    ipfsGet 1 (Except.ok (some [7])) (Except.ok ()) none (Except.ok ())
        = ⟨Except.ok ⟨1, [7]⟩, false, none⟩
    ∧ ipfsGet 1 (Except.ok none) (Except.ok ()) (some ⟨1, [42]⟩) (Except.ok ())
        = ⟨Except.ok ⟨1, [42]⟩, true, some ⟨1, [42]⟩⟩
    ∧ ipfsGet 1 (Except.ok none) (Except.ok ()) none (Except.ok ())
        = ⟨Except.error (Err.blockNotFound 1), true, none⟩ :=
  ⟨(ipfsGet_spec 1 (Except.ok (some [7])) (Except.ok ()) none (Except.ok ())).1 [7] rfl,
   (ipfsGet_spec 1 (Except.ok none) (Except.ok ()) (some ⟨1, [42]⟩) (Except.ok ())).2.1
     ⟨1, [42]⟩ rfl rfl rfl rfl,
   (ipfsGet_spec 1 (Except.ok none) (Except.ok ()) none (Except.ok ())).2.2 rfl rfl rfl⟩

/-- C2 (code bug): when `storage.alias` persistently fails with an error that
is not BlockNotFound (here StorageFailure), `Ipfs::alias` never returns: for
every number of loop iterations and any `get` behaviour, the loop is still
running — the `if let Some(BlockNotFound(..))` arm does not match, the error
is silently discarded, and `storage.alias` is retried, instead of the error
propagating to the caller as the claim (and the spec's propagation policy)
states. -/
theorem aliasLoop_swallows_foreign_errors (doGet : Cid → Except Err Unit)
    (fuel attempt : Nat) :
    aliasLoop (fun _ => Except.error Err.storageFailure) doGet fuel attempt = none := by
  induction fuel generalizing attempt with
  | zero => rfl
  | succ n ih => simpa [aliasLoop] using ih (attempt + 1)

end IpfsEmbed
